import Mathlib

/-!
Shallow embedding of the swarm-consensus agent
(`src/test_swarm_model/controllers/simple_robot.py` and
`src/test_swarm_model/simple_environment.py`) and proofs of the
testable properties stated in the specification.

Modelling conventions:
* Python floats are idealised as exact rationals (`ℚ`); the numeric claims
  under verification stay far from any comparison boundary.
* `scipy.stats.beta.cdf(0.5, a, b)` for the integer shape parameters this
  program uses equals the closed binomial form
  `(∑ k ∈ [a, a+b-1], C(a+b-1, k)) / 2^(a+b-1)`; `belief_value` below is
  that closed form.
* Random draws (`random.uniform` headings, `np.random.standard_cauchy`
  step lengths, `random.choice` fallback observations, the Bernoulli draw
  of the SOFT feedback branch) are supplied by an explicit `RandomTape`
  oracle, headings being given directly as (cosine, sine) pairs.
-/

set_option maxRecDepth 4096

namespace SwarmModel

/-- The five states of the agent state machine (`RobotState` in the source). -/
inductive RobotState where
  | RANDOM_WALK
  | COLLISION_AVOIDANCE
  | GET_OBSERVATION
  | SEND_SAMPLE
  | RESET
deriving DecidableEq

/-- The three feedback strategies (`FeedbackStrategy` in the source). -/
inductive FeedbackStrategy where
  | NONE
  | POSITIVE
  | SOFT
deriving DecidableEq

/-- A message channel entry: `(sender robot_id, bit)`, as appended by
`sendSample` (`self.message_queue.append((self.robot_id, message))`). -/
abbrev Msg := Option ℕ × ℕ

/-- The grid environment seen through `SimpleRobot.getObservation`:
a grid size and the boolean grid contents. -/
structure EnvSampler where
  grid_size : ℕ
  grid : ℕ → ℕ → Bool

/-- The measurement snapshot built by `sendSample` (`self.last_measurement`). -/
structure Measurement where
  robot_id : Option ℕ
  x : ℚ
  y : ℚ
  sample_value : ℕ
  belief : ℚ
  belief_conf : ℚ

/-- The mutable state of `SimpleRobot`.  The heading `direction` is stored as
its (cosine, sine) pair so that the embedding stays inside `ℚ`. -/
structure SimpleRobot where
  x : ℚ
  y : ℚ
  env : Option EnvSampler
  speed : ℚ
  direction : ℚ × ℚ
  levy_scale : ℚ
  state : RobotState
  timer : ℚ
  tau : ℚ
  random_walk_duration : ℚ
  random_walk_timer : ℚ
  last_observation : Option Bool
  observations : List Bool
  alpha : ℕ
  beta : ℕ
  p_c : ℚ
  decision_flag : ℤ
  min_swarm_count : ℕ
  sends : ℕ
  recvs : ℕ
  feedback_strategy : FeedbackStrategy
  robot_id : Option ℕ
  last_msg_index : ℕ
  last_measurement : Option Measurement

/-- Oracle for every random draw an `update` call can make.  `dirs i` is the
(cosine, sine) pair of the `i`-th heading drawn by `turnRandomAngle` within
the call, `cauchyDraw` the `np.random.standard_cauchy()` sample, `obsDraw`
the `random.choice([True, False])` fallback observation, and `softBit` the
outcome of the SOFT branch's Bernoulli draw `int(random.random() < p)`. -/
structure RandomTape where
  cauchyDraw : ℚ
  dirs : ℕ → ℚ × ℚ
  obsDraw : Bool
  softBit : ℕ

/-- `SimpleRobot.__init__(x, y, env, robot_id, message_queue)`: all fields
take the hard-coded defaults of the source; the initial random heading is the
caller-supplied draw `dir0`.  The constructor performs no validation. -/
def SimpleRobot_init (x y : ℚ) (env : Option EnvSampler) (robot_id : Option ℕ)
    (dir0 : ℚ × ℚ) : SimpleRobot where
  x := x
  y := y
  env := env
  speed := 5 / 100
  direction := dir0
  levy_scale := 5 / 100
  state := RobotState.RANDOM_WALK
  timer := 0
  tau := 2 / 10
  random_walk_duration := 5
  random_walk_timer := 0
  last_observation := none
  observations := []
  alpha := 1
  beta := 1
  p_c := 95 / 100
  decision_flag := -1
  min_swarm_count := 100
  sends := 0
  recvs := 0
  feedback_strategy := FeedbackStrategy.POSITIVE
  robot_id := robot_id
  last_msg_index := 0
  last_measurement := none

/-- The Beta-parameter update shared by `sendSample` and `recvSample`:
`if message == 1: self.alpha += 1 else: self.beta += 1`. -/
def updateBelief (a b : ℕ) (message : ℕ) : ℕ × ℕ :=
  if message = 1 then (a + 1, b) else (a, b + 1)

/-- `scipy.stats.beta.cdf(0.5, a, b)` — the regularized incomplete Beta
function at `1/2` — for the integer shape parameters this program produces:
`I_{1/2}(a, b) = (∑ k ∈ [a, a+b-1], C(a+b-1, k)) / 2^(a+b-1)`. -/
def belief_value (a b : ℕ) : ℚ :=
  (∑ k ∈ Finset.Icc a (a + b - 1), ((a + b - 1).choose k : ℚ)) / 2 ^ (a + b - 1)

/-- `SimpleRobot.get_belief_confidence`: `max(belief, 1 - belief)`. -/
def get_belief_confidence (a b : ℕ) : ℚ :=
  max (belief_value a b) (1 - belief_value a b)

/-- `SimpleRobot.calculateMessage(sample)`.  The SOFT branch ends in the
Bernoulli draw `int(random.random() < p)`; that draw's outcome is supplied
by the random tape as `softBit`. -/
def calculateMessage (r : SimpleRobot) (sample : ℕ) (softBit : ℕ) : ℕ :=
  match r.feedback_strategy with
  | FeedbackStrategy.NONE => sample
  | FeedbackStrategy.POSITIVE =>
      if r.decision_flag = -1 then sample
      else if r.decision_flag = 0 then 1 else 0
  | FeedbackStrategy.SOFT => softBit

/-- `SimpleRobot.recvSample(message)`. -/
def recvSample (r : SimpleRobot) (message : ℕ) : SimpleRobot :=
  let ab := updateBelief r.alpha r.beta message
  { r with alpha := ab.1, beta := ab.2, recvs := r.recvs + 1 }

/-- `SimpleRobot.sendSample(message)`: update the Beta parameters, count the
send, record the measurement snapshot, append `(robot_id, message)` to the
shared queue. -/
def sendSample (r : SimpleRobot) (message : ℕ) (q : List Msg) :
    SimpleRobot × List Msg :=
  let ab := updateBelief r.alpha r.beta message
  let belief := belief_value ab.1 ab.2
  let belief_conf := max belief (1 - belief)
  ({ r with
      alpha := ab.1
      beta := ab.2
      sends := r.sends + 1
      last_measurement := some
        { robot_id := r.robot_id
          x := r.x
          y := r.y
          sample_value := message
          belief := belief_conf
          belief_conf := belief_conf } },
   q ++ [(r.robot_id, message)])

/-- `SimpleRobot.check_decision`. -/
def check_decision (r : SimpleRobot) : SimpleRobot :=
  if r.sends + r.recvs ≥ r.min_swarm_count then
    let belief := belief_value r.alpha r.beta
    if belief > r.p_c then { r with decision_flag := 1 }
    else if belief < 1 - r.p_c then { r with decision_flag := 0 }
    else { r with decision_flag := -1 }
  else r

/-- `SimpleRobot.getObservation`: grid lookup with clamped indices when an
environment is present, otherwise `random.choice([True, False])`. -/
def getObservation (tape : RandomTape) (r : SimpleRobot) : Bool :=
  match r.env with
  | some e =>
      e.grid (min (r.x * e.grid_size).floor.toNat (e.grid_size - 1))
             (min (r.y * e.grid_size).floor.toNat (e.grid_size - 1))
  | none => tape.obsDraw

/-- `np.clip`. -/
def clip (v lo hi : ℚ) : ℚ := min (max v lo) hi

/-- The retry loop of `performMovement` (`while attempts < 8`): starting from
heading `dir` and having consumed `k` tape headings, try the candidate
position; on an out-of-bounds candidate draw the next heading from the tape
and retry, for at most `rem` bound checks.  Returns the committed position
(or `none` after all attempts fail), the final heading, and the number of
tape headings consumed. -/
def moveAttempts (x y step : ℚ) (dirs : ℕ → ℚ × ℚ) :
    ℚ × ℚ → ℕ → ℕ → Option (ℚ × ℚ) × (ℚ × ℚ) × ℕ
  | dir, k, 0 => (none, dir, k)
  | dir, k, rem + 1 =>
      let nx := x + step * dir.1
      let ny := y + step * dir.2
      if 0 ≤ nx ∧ nx ≤ 1 ∧ 0 ≤ ny ∧ ny ≤ 1 then (some (nx, ny), dir, k)
      else moveAttempts x y step dirs (dirs k) (k + 1) rem

/-- `SimpleRobot.performMovement(dt)`.  On failure of all 8 attempts the
source returns early: it only rotates, and in particular does **not** touch
the timers.  On success it commits the position, increments both timers by
`dt`, and runs the observation-interval and heading-change checks. -/
def performMovement (dt : ℚ) (tape : RandomTape) (r : SimpleRobot) :
    SimpleRobot :=
  let step_size := clip (|tape.cauchyDraw| * r.levy_scale) (5 / 1000) (3 / 10)
  match moveAttempts r.x r.y step_size tape.dirs r.direction 0 8 with
  | (none, _, k) => { r with direction := tape.dirs k }
  | (some nxy, dir, k) =>
      let r1 := { r with
        x := nxy.1
        y := nxy.2
        direction := dir
        timer := r.timer + dt
        random_walk_timer := r.random_walk_timer + dt }
      if r1.timer ≥ r1.tau then
        { r1 with state := RobotState.GET_OBSERVATION, timer := 0 }
      else if r1.random_walk_timer ≥ r1.random_walk_duration then
        { r1 with direction := tape.dirs k, random_walk_timer := 0 }
      else r1

/-- The drain loop at the top of `SimpleRobot.update`:
`while self.last_msg_index < len(self.message_queue): ...`. -/
def drainLoop (q : List Msg) (r : SimpleRobot) : SimpleRobot :=
  if h : r.last_msg_index < q.length then
    let entry := q.get ⟨r.last_msg_index, h⟩
    let r1 := if entry.1 ≠ r.robot_id then recvSample r entry.2 else r
    drainLoop q { r1 with last_msg_index := r.last_msg_index + 1 }
  else r
termination_by q.length - r.last_msg_index
decreasing_by simp; omega

/-- `SimpleRobot.update(dt)` — the per-step entry point: drain the channel,
re-check the decision, increment the timer, then dispatch on the state. -/
def update (dt : ℚ) (tape : RandomTape) (q : List Msg) (r0 : SimpleRobot) :
    SimpleRobot × List Msg :=
  let rd := check_decision (drainLoop q r0)
  let r := { rd with timer := rd.timer + dt }
  match r.state with
  | RobotState.RANDOM_WALK =>
      let rm := performMovement dt tape r
      (if rm.timer ≥ rm.tau then { rm with state := RobotState.GET_OBSERVATION }
       else rm, q)
  | RobotState.COLLISION_AVOIDANCE =>
      ({ r with direction := tape.dirs 0, state := RobotState.RANDOM_WALK }, q)
  | RobotState.GET_OBSERVATION =>
      let obs := getObservation tape r
      ({ r with
          last_observation := some obs
          observations := r.observations ++ [obs]
          state := RobotState.SEND_SAMPLE }, q)
  | RobotState.SEND_SAMPLE =>
      let raw := if r.last_observation = some true then 1 else 0
      let msg := calculateMessage r raw tape.softBit
      let rq := sendSample r msg q
      let r2 := check_decision rq.1
      ({ r2 with state := RobotState.RANDOM_WALK, timer := 0 }, rq.2)
  | RobotState.RESET =>
      ({ r with state := RobotState.RANDOM_WALK, timer := 0 }, q)

/-- Python-level runtime failure kinds relevant to construction, next to the
distinct configuration-error kind the specification calls for. -/
inductive PyError where
  | valueError
  | configError
deriving DecidableEq

/-- The state built by `SimpleEnvironment.__init__`. -/
structure SimpleEnvironment where
  grid_size : ℤ
  num_vibrating : ℤ
  vibrating_positions : List (ℤ × ℤ)

/-- `SimpleEnvironment.__init__(grid_size)`.  `randintDraw lo hi` is the
oracle for `random.randint(lo, hi)` and `sampleDraw k` the one for
`random.sample(positions, k)`.  Python's `int(0.6 * n²)` truncates toward
zero; `n²` is never negative, so integer division by 10 matches it.  The
only ways the Python body can fail are the `ValueError`s of `random.randint`
on an empty range, of `np.zeros` on negative dimensions, and of
`random.sample` on an out-of-range count; the body contains no validation of
its own and no configuration-error path. -/
def SimpleEnvironment_init (grid_size : ℤ)
    (randintDraw : ℤ → ℤ → ℤ) (sampleDraw : ℕ → List (ℤ × ℤ)) :
    Except PyError SimpleEnvironment :=
  let num_squares := grid_size * grid_size
  let lo := 6 * num_squares / 10
  let hi := 8 * num_squares / 10
  if lo > hi then Except.error PyError.valueError
  else if grid_size < 0 then Except.error PyError.valueError
  else
    let n := grid_size.toNat
    let positions :=
      (List.range n).flatMap fun i => (List.range n).map fun j => ((i : ℤ), (j : ℤ))
    let num_vibrating := randintDraw lo hi
    if num_vibrating < 0 ∨ num_vibrating.toNat > positions.length then
      Except.error PyError.valueError
    else
      Except.ok
        { grid_size := grid_size
          num_vibrating := num_vibrating
          vibrating_positions := sampleDraw num_vibrating.toNat }

/-- A concrete robot exactly as the source constructor builds it:
`SimpleRobot(0.5, 0.5, env=None, robot_id=0)` with initial heading along the
positive x axis. -/
def baseRobot : SimpleRobot :=
  SimpleRobot_init (1 / 2) (1 / 2) none (some 0) (1, 0)

/-- A concrete random tape: Cauchy draw 0, every heading along the positive
x axis, fallback observation `true`, SOFT draw 0. -/
def baseTape : RandomTape :=
  { cauchyDraw := 0, dirs := fun _ => (1, 0), obsDraw := true, softBit := 0 }

/-- An agent that previously decided (flag 0) whose belief has returned to
the ambiguous band: alpha = beta = 2 after two broadcasts, threshold kept at
the default 0.95, minimum sample count 2. -/
def revocableRobot : SimpleRobot :=
  { baseRobot with
    alpha := 2
    beta := 2
    sends := 2
    min_swarm_count := 2
    decision_flag := 0 }

/-- Scenario B agent: fresh prior (alpha = beta = 1), minimum sample count
4, `p_c` the default 0.95. -/
def scenarioB_robot : SimpleRobot := { baseRobot with min_swarm_count := 4 }

/-- A concrete three-entry channel: a peer bit 1, the agent's own echo, an
anonymous peer bit 1. -/
def drainQueue : List Msg := [(some 1, 1), (some 0, 0), (none, 1)]

/-- A robot waiting in the observe state, used as the C10 witness input. -/
def observeRobot : SimpleRobot :=
  { baseRobot with state := RobotState.GET_OBSERVATION }

/-- C9 counterexample input: the constructed robot with observation interval
1 (so no reset can fire within two ticks). -/
def cexRobot : SimpleRobot := { baseRobot with tau := 1 }

/-- `recvSample` changes only `alpha`, `beta` and `recvs`. -/
theorem recvSample_frame (r : SimpleRobot) (m : ℕ) :
    (recvSample r m).x = r.x ∧ (recvSample r m).y = r.y ∧
    (recvSample r m).direction = r.direction ∧
    (recvSample r m).state = r.state ∧
    (recvSample r m).timer = r.timer ∧ (recvSample r m).tau = r.tau ∧
    (recvSample r m).random_walk_timer = r.random_walk_timer ∧
    (recvSample r m).random_walk_duration = r.random_walk_duration ∧
    (recvSample r m).levy_scale = r.levy_scale ∧
    (recvSample r m).robot_id = r.robot_id ∧
    (recvSample r m).last_msg_index = r.last_msg_index ∧
    (recvSample r m).sends = r.sends ∧
    (recvSample r m).p_c = r.p_c ∧
    (recvSample r m).min_swarm_count = r.min_swarm_count ∧
    (recvSample r m).decision_flag = r.decision_flag ∧
    (recvSample r m).feedback_strategy = r.feedback_strategy := by
  simp [recvSample]

/-- Unfolding of `drainLoop` when the cursor still has entries to read. -/
theorem drainLoop_step (q : List Msg) (r : SimpleRobot)
    (h : r.last_msg_index < q.length) :
    drainLoop q r = drainLoop q
      { (if (q.get ⟨r.last_msg_index, h⟩).1 ≠ r.robot_id
          then recvSample r (q.get ⟨r.last_msg_index, h⟩).2 else r) with
        last_msg_index := r.last_msg_index + 1 } := by
  conv_lhs => rw [drainLoop]
  simp only [dif_pos h]

/-- Unfolding of `drainLoop` when the cursor has caught up. -/
theorem drainLoop_done (q : List Msg) (r : SimpleRobot)
    (h : ¬ r.last_msg_index < q.length) :
    drainLoop q r = r := by
  conv_lhs => rw [drainLoop]
  simp only [dif_neg h]

/-- The drain loop changes only `alpha`, `beta`, `recvs` and
`last_msg_index`. -/
theorem drainLoop_only (q : List Msg) (r : SimpleRobot) :
    drainLoop q r = { r with
      alpha := (drainLoop q r).alpha
      beta := (drainLoop q r).beta
      recvs := (drainLoop q r).recvs
      last_msg_index := (drainLoop q r).last_msg_index } := by
  generalize hn : q.length - r.last_msg_index = n
  induction n generalizing r with
  | zero =>
    have h : ¬ r.last_msg_index < q.length := by omega
    rw [drainLoop_done q r h]
  | succ n ih =>
    have h : r.last_msg_index < q.length := by omega
    rw [drainLoop_step q r h]
    by_cases hp : (q.get ⟨r.last_msg_index, h⟩).1 ≠ r.robot_id
    · rw [if_pos hp]
      rw [ih _ (by simp [recvSample]; omega)]
      simp [recvSample]
    · rw [if_neg hp, ih _ (by simp; omega)]

/-- Whatever position the retry loop commits passed the bounds check. -/
theorem moveAttempts_some_bounds (x y step : ℚ) (dirs : ℕ → ℚ × ℚ) :
    ∀ (dir : ℚ × ℚ) (k rem : ℕ) (p d : ℚ × ℚ) (k' : ℕ),
      moveAttempts x y step dirs dir k rem = (some p, d, k') →
      0 ≤ p.1 ∧ p.1 ≤ 1 ∧ 0 ≤ p.2 ∧ p.2 ≤ 1 := by
  intro dir k rem
  induction rem generalizing dir k with
  | zero => intro p d k' hp; simp [moveAttempts] at hp
  | succ rem ih =>
    intro p d k' hp
    simp only [moveAttempts] at hp
    split_ifs at hp with hb
    · obtain ⟨hp1, -, -⟩ := Prod.mk.injEq .. ▸ hp
      obtain rfl : p = (x + step * dir.1, y + step * dir.2) :=
        (Option.some.injEq .. ▸ hp1).symm
      exact ⟨hb.1, hb.2.1, hb.2.2.1, hb.2.2.2⟩
    · exact ih (dirs k) (k + 1) p d k' hp

/-- `performMovement` changes only `x`, `y`, `direction`, `state`, `timer`
and `random_walk_timer`. -/
theorem performMovement_only (dt : ℚ) (tape : RandomTape) (r : SimpleRobot) :
    performMovement dt tape r = { r with
      x := (performMovement dt tape r).x
      y := (performMovement dt tape r).y
      direction := (performMovement dt tape r).direction
      state := (performMovement dt tape r).state
      timer := (performMovement dt tape r).timer
      random_walk_timer := (performMovement dt tape r).random_walk_timer } := by
  unfold performMovement
  rcases hm : moveAttempts r.x r.y
      (clip (|tape.cauchyDraw| * r.levy_scale) (5 / 1000) (3 / 10))
      tape.dirs r.direction 0 8 with ⟨o, d, k⟩
  cases o with
  | none => simp [hm]
  | some nxy => simp only [hm]; split_ifs <;> simp

/-- `check_decision` changes only `decision_flag`. -/
theorem check_decision_only (r : SimpleRobot) :
    check_decision r =
      { r with decision_flag := (check_decision r).decision_flag } := by
  unfold check_decision
  by_cases h1 : r.sends + r.recvs ≥ r.min_swarm_count
  · simp only [if_pos h1]
    by_cases h2 : belief_value r.alpha r.beta > r.p_c
    · simp [h2]
    · by_cases h3 : belief_value r.alpha r.beta < 1 - r.p_c <;> simp [h2, h3]
  · simp [h1]

@[simp] theorem drainLoop_x (q : List Msg) (r : SimpleRobot) :
    (drainLoop q r).x = r.x := by rw [drainLoop_only]

@[simp] theorem drainLoop_y (q : List Msg) (r : SimpleRobot) :
    (drainLoop q r).y = r.y := by rw [drainLoop_only]

@[simp] theorem drainLoop_state (q : List Msg) (r : SimpleRobot) :
    (drainLoop q r).state = r.state := by rw [drainLoop_only]

@[simp] theorem drainLoop_timer (q : List Msg) (r : SimpleRobot) :
    (drainLoop q r).timer = r.timer := by rw [drainLoop_only]

@[simp] theorem drainLoop_tau (q : List Msg) (r : SimpleRobot) :
    (drainLoop q r).tau = r.tau := by rw [drainLoop_only]

@[simp] theorem drainLoop_direction (q : List Msg) (r : SimpleRobot) :
    (drainLoop q r).direction = r.direction := by rw [drainLoop_only]

@[simp] theorem drainLoop_rwt (q : List Msg) (r : SimpleRobot) :
    (drainLoop q r).random_walk_timer = r.random_walk_timer := by
  rw [drainLoop_only]

@[simp] theorem drainLoop_rwd (q : List Msg) (r : SimpleRobot) :
    (drainLoop q r).random_walk_duration = r.random_walk_duration := by
  rw [drainLoop_only]

@[simp] theorem drainLoop_levy (q : List Msg) (r : SimpleRobot) :
    (drainLoop q r).levy_scale = r.levy_scale := by rw [drainLoop_only]

@[simp] theorem drainLoop_robot_id (q : List Msg) (r : SimpleRobot) :
    (drainLoop q r).robot_id = r.robot_id := by rw [drainLoop_only]

@[simp] theorem drainLoop_sends (q : List Msg) (r : SimpleRobot) :
    (drainLoop q r).sends = r.sends := by rw [drainLoop_only]

@[simp] theorem drainLoop_p_c (q : List Msg) (r : SimpleRobot) :
    (drainLoop q r).p_c = r.p_c := by rw [drainLoop_only]

@[simp] theorem drainLoop_min_count (q : List Msg) (r : SimpleRobot) :
    (drainLoop q r).min_swarm_count = r.min_swarm_count := by
  rw [drainLoop_only]

@[simp] theorem drainLoop_feedback (q : List Msg) (r : SimpleRobot) :
    (drainLoop q r).feedback_strategy = r.feedback_strategy := by
  rw [drainLoop_only]

@[simp] theorem drainLoop_decision (q : List Msg) (r : SimpleRobot) :
    (drainLoop q r).decision_flag = r.decision_flag := by rw [drainLoop_only]

@[simp] theorem drainLoop_env (q : List Msg) (r : SimpleRobot) :
    (drainLoop q r).env = r.env := by rw [drainLoop_only]

@[simp] theorem drainLoop_last_obs (q : List Msg) (r : SimpleRobot) :
    (drainLoop q r).last_observation = r.last_observation := by
  rw [drainLoop_only]

@[simp] theorem check_decision_x (r : SimpleRobot) :
    (check_decision r).x = r.x := by rw [check_decision_only]

@[simp] theorem check_decision_y (r : SimpleRobot) :
    (check_decision r).y = r.y := by rw [check_decision_only]

@[simp] theorem check_decision_state (r : SimpleRobot) :
    (check_decision r).state = r.state := by rw [check_decision_only]

@[simp] theorem check_decision_timer (r : SimpleRobot) :
    (check_decision r).timer = r.timer := by rw [check_decision_only]

@[simp] theorem check_decision_tau (r : SimpleRobot) :
    (check_decision r).tau = r.tau := by rw [check_decision_only]

@[simp] theorem check_decision_direction (r : SimpleRobot) :
    (check_decision r).direction = r.direction := by rw [check_decision_only]

@[simp] theorem check_decision_rwt (r : SimpleRobot) :
    (check_decision r).random_walk_timer = r.random_walk_timer := by
  rw [check_decision_only]

@[simp] theorem check_decision_rwd (r : SimpleRobot) :
    (check_decision r).random_walk_duration = r.random_walk_duration := by
  rw [check_decision_only]

@[simp] theorem check_decision_levy (r : SimpleRobot) :
    (check_decision r).levy_scale = r.levy_scale := by rw [check_decision_only]

@[simp] theorem check_decision_robot_id (r : SimpleRobot) :
    (check_decision r).robot_id = r.robot_id := by rw [check_decision_only]

@[simp] theorem check_decision_alpha (r : SimpleRobot) :
    (check_decision r).alpha = r.alpha := by rw [check_decision_only]

@[simp] theorem check_decision_beta (r : SimpleRobot) :
    (check_decision r).beta = r.beta := by rw [check_decision_only]

@[simp] theorem check_decision_sends (r : SimpleRobot) :
    (check_decision r).sends = r.sends := by rw [check_decision_only]

@[simp] theorem check_decision_recvs (r : SimpleRobot) :
    (check_decision r).recvs = r.recvs := by rw [check_decision_only]

@[simp] theorem check_decision_cursor (r : SimpleRobot) :
    (check_decision r).last_msg_index = r.last_msg_index := by
  rw [check_decision_only]

@[simp] theorem check_decision_p_c (r : SimpleRobot) :
    (check_decision r).p_c = r.p_c := by rw [check_decision_only]

@[simp] theorem check_decision_min_count (r : SimpleRobot) :
    (check_decision r).min_swarm_count = r.min_swarm_count := by
  rw [check_decision_only]

@[simp] theorem check_decision_feedback (r : SimpleRobot) :
    (check_decision r).feedback_strategy = r.feedback_strategy := by
  rw [check_decision_only]

@[simp] theorem check_decision_env (r : SimpleRobot) :
    (check_decision r).env = r.env := by rw [check_decision_only]

@[simp] theorem check_decision_last_obs (r : SimpleRobot) :
    (check_decision r).last_observation = r.last_observation := by
  rw [check_decision_only]

@[simp] theorem performMovement_alpha (dt : ℚ) (tape : RandomTape)
    (r : SimpleRobot) : (performMovement dt tape r).alpha = r.alpha := by
  rw [performMovement_only]

@[simp] theorem performMovement_beta (dt : ℚ) (tape : RandomTape)
    (r : SimpleRobot) : (performMovement dt tape r).beta = r.beta := by
  rw [performMovement_only]

@[simp] theorem performMovement_sends (dt : ℚ) (tape : RandomTape)
    (r : SimpleRobot) : (performMovement dt tape r).sends = r.sends := by
  rw [performMovement_only]

@[simp] theorem performMovement_recvs (dt : ℚ) (tape : RandomTape)
    (r : SimpleRobot) : (performMovement dt tape r).recvs = r.recvs := by
  rw [performMovement_only]

@[simp] theorem performMovement_cursor (dt : ℚ) (tape : RandomTape)
    (r : SimpleRobot) :
    (performMovement dt tape r).last_msg_index = r.last_msg_index := by
  rw [performMovement_only]

@[simp] theorem performMovement_tau (dt : ℚ) (tape : RandomTape)
    (r : SimpleRobot) : (performMovement dt tape r).tau = r.tau := by
  rw [performMovement_only]

@[simp] theorem performMovement_decision (dt : ℚ) (tape : RandomTape)
    (r : SimpleRobot) :
    (performMovement dt tape r).decision_flag = r.decision_flag := by
  rw [performMovement_only]

/-- A binomial upper tail rewritten as a lower tail via `C(n,k) = C(n,n-k)`. -/
theorem tail_sum (b n : ℕ) (hb : b ≤ n + 1) :
    ∑ k ∈ Finset.Icc b n, n.choose k =
      ∑ k ∈ Finset.range (n + 1 - b), n.choose k := by
  rw [← Nat.Ico_succ_right, Finset.sum_Ico_eq_sum_range]
  have h1 : ∀ k ∈ Finset.range (n + 1 - b),
      n.choose (b + k) = n.choose (n + 1 - b - 1 - k) := by
    intro k hk
    simp only [Finset.mem_range] at hk
    have hbk : b + k ≤ n := by omega
    have he : n + 1 - b - 1 - k = n - (b + k) := by omega
    rw [he, Nat.choose_symm hbk]
  rw [Finset.sum_congr rfl h1, Finset.sum_range_reflect]

/-- The two binomial tails with swapped shape parameters partition `2^n`. -/
theorem sum_choose_tail_add (a b : ℕ) (ha : 1 ≤ a) (hb : 1 ≤ b) :
    (∑ k ∈ Finset.Icc a (a + b - 1), (a + b - 1).choose k) +
      (∑ k ∈ Finset.Icc b (a + b - 1), (a + b - 1).choose k) =
      2 ^ (a + b - 1) := by
  set n := a + b - 1 with hn
  have hbn : b ≤ n + 1 := by omega
  rw [tail_sum b n hbn]
  have hmb : n + 1 - b = a := by omega
  rw [hmb]
  have h2 : (∑ k ∈ Finset.range a, n.choose k)
      + ∑ k ∈ Finset.Ico a (n + 1), n.choose k
      = ∑ k ∈ Finset.range (n + 1), n.choose k := by
    rw [Finset.range_eq_Ico]
    exact Finset.sum_Ico_consecutive _ (Nat.zero_le a) (by omega)
  rw [← Nat.Ico_succ_right, add_comm, h2, Nat.sum_range_choose]

/-- Swapping the shape parameters complements `belief_value`. -/
theorem belief_value_swap (a b : ℕ) (ha : 1 ≤ a) (hb : 1 ≤ b) :
    belief_value b a = 1 - belief_value a b := by
  unfold belief_value
  have hcomm : b + a - 1 = a + b - 1 := by omega
  rw [hcomm]
  have key := sum_choose_tail_add a b ha hb
  have keyQ : (∑ k ∈ Finset.Icc a (a + b - 1), ((a + b - 1).choose k : ℚ)) +
      (∑ k ∈ Finset.Icc b (a + b - 1), ((a + b - 1).choose k : ℚ)) =
      2 ^ (a + b - 1) := by
    exact_mod_cast key
  have h2 : (0 : ℚ) < 2 ^ (a + b - 1) := by positivity
  have hs : (∑ k ∈ Finset.Icc b (a + b - 1), ((a + b - 1).choose k : ℚ)) =
      2 ^ (a + b - 1) -
        ∑ k ∈ Finset.Icc a (a + b - 1), ((a + b - 1).choose k : ℚ) := by
    linarith [keyQ]
  rw [hs, sub_div, div_self (ne_of_gt h2)]

/-- `belief_value` is a probability: it is nonnegative. -/
theorem belief_value_nonneg (a b : ℕ) : 0 ≤ belief_value a b := by
  unfold belief_value
  apply div_nonneg
  · exact Finset.sum_nonneg fun k _ => by positivity
  · positivity

/-- `belief_value` is a probability: it is at most one. -/
theorem belief_value_le_one (a b : ℕ) (ha : 1 ≤ a) (hb : 1 ≤ b) :
    belief_value a b ≤ 1 := by
  unfold belief_value
  rw [div_le_one (by positivity)]
  have key := sum_choose_tail_add a b ha hb
  have h1 : (∑ k ∈ Finset.Icc a (a + b - 1), (a + b - 1).choose k) ≤
      2 ^ (a + b - 1) := by omega
  calc (∑ k ∈ Finset.Icc a (a + b - 1), ((a + b - 1).choose k : ℚ))
      = ((∑ k ∈ Finset.Icc a (a + b - 1), (a + b - 1).choose k : ℕ) : ℚ) := by
        push_cast; ring
    _ ≤ ((2 ^ (a + b - 1) : ℕ) : ℚ) := by exact_mod_cast h1
    _ = 2 ^ (a + b - 1) := by push_cast; ring

/-- Induction worker for the drain-loop characterisation. -/
theorem drainLoop_spec_aux (q : List Msg) (n : ℕ) :
    ∀ r : SimpleRobot, r.last_msg_index ≤ q.length →
      q.length - r.last_msg_index = n →
      ((drainLoop q r).alpha, (drainLoop q r).beta) =
        ((q.drop r.last_msg_index).filter
            (fun m => m.1 ≠ r.robot_id)).foldl
          (fun ab m => updateBelief ab.1 ab.2 m.2) (r.alpha, r.beta) ∧
      (drainLoop q r).recvs = r.recvs +
        ((q.drop r.last_msg_index).filter
            (fun m => m.1 ≠ r.robot_id)).length ∧
      (drainLoop q r).last_msg_index = q.length := by
  induction n with
  | zero =>
    intro r h hn
    have hge : ¬ r.last_msg_index < q.length := by omega
    have hlen : r.last_msg_index = q.length := by omega
    rw [drainLoop_done q r hge, hlen, List.drop_length]
    simp
  | succ n ih =>
    intro r h hn
    have hlt : r.last_msg_index < q.length := by omega
    rw [drainLoop_step q r hlt]
    have hdrop : q.drop r.last_msg_index =
        q.get ⟨r.last_msg_index, hlt⟩ :: q.drop (r.last_msg_index + 1) := by
      rw [List.drop_eq_getElem_cons hlt]
      simp
    rw [hdrop]
    by_cases hp : (q.get ⟨r.last_msg_index, hlt⟩).1 ≠ r.robot_id
    · rw [if_pos hp]
      obtain ⟨ihab, ihrecv, ihcur⟩ :=
        ih { recvSample r (q.get ⟨r.last_msg_index, hlt⟩).2 with
              last_msg_index := r.last_msg_index + 1 }
          (by simp [recvSample]; omega) (by simp [recvSample]; omega)
      simp only [recvSample] at ihab ihrecv ihcur
      refine ⟨?_, ?_, ?_⟩
      · rw [List.filter_cons_of_pos (by simpa using hp), List.foldl_cons]
        simpa using ihab
      · rw [List.filter_cons_of_pos (by simpa using hp)]
        simp only [List.length_cons]
        simpa [Nat.add_comm, Nat.add_assoc, Nat.add_left_comm] using ihrecv
      · simpa using ihcur
    · rw [if_neg hp]
      obtain ⟨ihab, ihrecv, ihcur⟩ :=
        ih { r with last_msg_index := r.last_msg_index + 1 }
          (by simp; omega) (by simp; omega)
      refine ⟨?_, ?_, ?_⟩
      · rw [List.filter_cons_of_neg (by simpa using hp)]
        simpa using ihab
      · rw [List.filter_cons_of_neg (by simpa using hp)]
        simpa using ihrecv
      · simpa using ihcur

/-- C1: under the POSITIVE feedback policy the transmitted bit equals the
raw observation bit while the agent is undecided (`decision_flag = -1`).
Once the agent holds the decision the specification's scenarios B and C call
the "below-0.5" outcome — `decision_flag = 0`, the flag `check_decision`
sets when `belief_value` drops below `1 − p_c` — every transmitted bit
equals 1 regardless of the raw observation, and under the opposite decision
(`decision_flag = 1`, set when `belief_value` exceeds `p_c`) every
transmitted bit equals 0. -/
theorem claim_C1_positive_feedback (r : SimpleRobot) (sample softBit : ℕ)
    (hfs : r.feedback_strategy = FeedbackStrategy.POSITIVE) :
    (r.decision_flag = -1 → calculateMessage r sample softBit = sample) ∧
    (r.decision_flag = 0 → calculateMessage r sample softBit = 1) ∧
    (r.decision_flag = 1 → calculateMessage r sample softBit = 0) ∧
    (1 / 2 ≤ r.p_c → r.sends + r.recvs ≥ r.min_swarm_count →
      belief_value r.alpha r.beta < 1 - r.p_c →
      (check_decision r).decision_flag = 0) ∧
    (r.sends + r.recvs ≥ r.min_swarm_count →
      r.p_c < belief_value r.alpha r.beta →
      (check_decision r).decision_flag = 1) := by
  refine ⟨?_, ?_, ?_, ?_, ?_⟩
  · intro h; simp [calculateMessage, hfs, h]
  · intro h; simp [calculateMessage, hfs, h]
  · intro h; simp [calculateMessage, hfs, h]
  · intro hpc hcount hlow
    have hnp : ¬ belief_value r.alpha r.beta > r.p_c := by
      simp only [gt_iff_lt, not_lt]
      linarith
    unfold check_decision
    rw [if_pos hcount, if_neg hnp, if_pos hlow]
  · intro hcount hhigh
    unfold check_decision
    rw [if_pos hcount, if_pos hhigh]

/-- Witness for C1: the freshly constructed robot uses the POSITIVE
strategy; the conclusion is obtained by applying the theorem there with raw
bit 1 and SOFT draw 0. -/
theorem claim_C1_positive_feedback_witness :
    baseRobot.feedback_strategy = FeedbackStrategy.POSITIVE ∧
    ((baseRobot.decision_flag = -1 → calculateMessage baseRobot 1 0 = 1) ∧
     (baseRobot.decision_flag = 0 → calculateMessage baseRobot 1 0 = 1) ∧
     (baseRobot.decision_flag = 1 → calculateMessage baseRobot 1 0 = 0) ∧
     (1 / 2 ≤ baseRobot.p_c →
       baseRobot.sends + baseRobot.recvs ≥ baseRobot.min_swarm_count →
       belief_value baseRobot.alpha baseRobot.beta < 1 - baseRobot.p_c →
       (check_decision baseRobot).decision_flag = 0) ∧
     (baseRobot.sends + baseRobot.recvs ≥ baseRobot.min_swarm_count →
       baseRobot.p_c < belief_value baseRobot.alpha baseRobot.beta →
       (check_decision baseRobot).decision_flag = 1)) :=
  ⟨rfl, claim_C1_positive_feedback baseRobot 1 0 rfl⟩

/-- C3: once the agent has at least `min_swarm_count` folded samples and
`belief_value` lies strictly inside `(1 − p_c, p_c)`, `check_decision` sets
the decision flag to undecided (−1), whatever decision was held before. -/
theorem claim_C3_revocable (r : SimpleRobot)
    (hcount : r.sends + r.recvs ≥ r.min_swarm_count)
    (hlow : 1 - r.p_c < belief_value r.alpha r.beta)
    (hhigh : belief_value r.alpha r.beta < r.p_c) :
    (check_decision r).decision_flag = -1 := by
  have hnp : ¬ belief_value r.alpha r.beta > r.p_c := by
    simp only [gt_iff_lt, not_lt]
    exact hhigh.le
  unfold check_decision
  rw [if_pos hcount, if_neg hnp, if_neg (not_lt.2 hlow.le)]

/-- Witness for C3 at `revocableRobot`: `belief_value 2 2 = 1/2` lies inside
`(0.05, 0.95)` and the sample count is met, so the held decision is
withdrawn. -/
theorem claim_C3_revocable_witness :
    (revocableRobot.sends + revocableRobot.recvs ≥
        revocableRobot.min_swarm_count ∧
      1 - revocableRobot.p_c <
        belief_value revocableRobot.alpha revocableRobot.beta ∧
      belief_value revocableRobot.alpha revocableRobot.beta <
        revocableRobot.p_c) ∧
    (check_decision revocableRobot).decision_flag = -1 :=
  ⟨⟨by norm_num [revocableRobot, baseRobot, SimpleRobot_init],
    by norm_num [revocableRobot, baseRobot, SimpleRobot_init, belief_value,
      ← Nat.Ico_succ_right, Finset.sum_Ico_eq_sum_range, Finset.sum_range_succ],
    by norm_num [revocableRobot, baseRobot, SimpleRobot_init, belief_value,
      ← Nat.Ico_succ_right, Finset.sum_Ico_eq_sum_range, Finset.sum_range_succ]⟩,
   claim_C3_revocable revocableRobot
    (by norm_num [revocableRobot, baseRobot, SimpleRobot_init])
    (by norm_num [revocableRobot, baseRobot, SimpleRobot_init, belief_value,
      ← Nat.Ico_succ_right, Finset.sum_Ico_eq_sum_range, Finset.sum_range_succ])
    (by norm_num [revocableRobot, baseRobot, SimpleRobot_init, belief_value,
      ← Nat.Ico_succ_right, Finset.sum_Ico_eq_sum_range, Finset.sum_range_succ])⟩

/-- Fold of the Beta update over a bit list, from an arbitrary start: the
components never decrease and their sum grows by exactly the list length. -/
theorem foldl_updateBelief_bounds (bits : List ℕ) :
    ∀ ab : ℕ × ℕ,
      ab.1 ≤ (bits.foldl (fun ab bit => updateBelief ab.1 ab.2 bit) ab).1 ∧
      ab.2 ≤ (bits.foldl (fun ab bit => updateBelief ab.1 ab.2 bit) ab).2 ∧
      (bits.foldl (fun ab bit => updateBelief ab.1 ab.2 bit) ab).1 +
        (bits.foldl (fun ab bit => updateBelief ab.1 ab.2 bit) ab).2 =
        ab.1 + ab.2 + bits.length := by
  induction bits with
  | nil => intro ab; simp
  | cons b bs ih =>
    intro ab
    simp only [List.foldl_cons, List.length_cons]
    obtain ⟨h1, h2, h3⟩ := ih (updateBelief ab.1 ab.2 b)
    by_cases hb : b = 1 <;> simp [updateBelief, hb] at h1 h2 h3 ⊢ <;> omega

/-- C6: folding any bit list into the prior (1, 1) with the shared Beta
update keeps alpha ≥ 1 and beta ≥ 1 and makes `(alpha−1) + (beta−1)` the
number of folded updates; `recvSample` (peer receipt) and `sendSample`
(self-broadcast) both perform exactly this update, which increments alpha on
bit 1 and beta otherwise. -/
theorem claim_C6_counts (bits : List ℕ) (r : SimpleRobot) (m : ℕ)
    (q : List Msg) :
    ((bits.foldl (fun ab bit => updateBelief ab.1 ab.2 bit) (1, 1)).1 - 1) +
        ((bits.foldl (fun ab bit => updateBelief ab.1 ab.2 bit) (1, 1)).2 - 1)
      = bits.length ∧
    1 ≤ (bits.foldl (fun ab bit => updateBelief ab.1 ab.2 bit) (1, 1)).1 ∧
    1 ≤ (bits.foldl (fun ab bit => updateBelief ab.1 ab.2 bit) (1, 1)).2 ∧
    ((recvSample r m).alpha, (recvSample r m).beta) =
      updateBelief r.alpha r.beta m ∧
    (recvSample r m).recvs = r.recvs + 1 ∧
    ((sendSample r m q).1.alpha, (sendSample r m q).1.beta) =
      updateBelief r.alpha r.beta m ∧
    (sendSample r m q).1.sends = r.sends + 1 ∧
    updateBelief r.alpha r.beta m =
      if m = 1 then (r.alpha + 1, r.beta) else (r.alpha, r.beta + 1) := by
  obtain ⟨h1, h2, h3⟩ := foldl_updateBelief_bounds bits (1, 1)
  exact ⟨by omega, h1, h2, by simp [recvSample], by simp [recvSample],
    by simp [sendSample], by simp [sendSample], rfl⟩

/-- C7: for shape parameters ≥ 1 the belief confidence
`max(belief_value, 1 − belief_value)` lies in [1/2, 1] and is invariant
under swapping alpha with beta (equivalently, swapping the polarity of every
fed bit). -/
theorem claim_C7_confidence (a b : ℕ) (ha : 1 ≤ a) (hb : 1 ≤ b) :
    1 / 2 ≤ get_belief_confidence a b ∧ get_belief_confidence a b ≤ 1 ∧
    get_belief_confidence b a = get_belief_confidence a b := by
  have h0 := belief_value_nonneg a b
  have h1 := belief_value_le_one a b ha hb
  unfold get_belief_confidence
  refine ⟨?_, ?_, ?_⟩
  · rcases le_total (belief_value a b) (1 / 2) with h | h
    · exact le_max_of_le_right (by linarith)
    · exact le_max_of_le_left h
  · exact max_le h1 (by linarith)
  · rw [belief_value_swap a b ha hb, sub_sub_cancel, max_comm]

/-- Witness for C7 at alpha = 2, beta = 1. -/
theorem claim_C7_confidence_witness :
    ((1 : ℕ) ≤ 2 ∧ (1 : ℕ) ≤ 1) ∧
    (1 / 2 ≤ get_belief_confidence 2 1 ∧ get_belief_confidence 2 1 ≤ 1 ∧
      get_belief_confidence 1 2 = get_belief_confidence 2 1) :=
  ⟨by decide, claim_C7_confidence 2 1 (by decide) (by decide)⟩

/-- C8 counterexample: constructing the environment with the non-positive
grid size 0 raises nothing and yields an instance, refuting the claim that
every invalid configuration value makes construction fail with a
configuration error. -/
theorem claim_C8_cex :
    SimpleEnvironment_init 0 (fun _ _ => 0) (fun _ => []) =
      Except.ok
        { grid_size := 0, num_vibrating := 0, vibrating_positions := [] } := by
  rfl

/-- C8 amended: construction performs no configuration validation at all —
the environment constructor can only surface Python `ValueError`s, never a
distinct configuration-error kind, for any grid size; and the agent
constructor is total, unconditionally installing the hard-coded defaults
(`p_c = 0.95`, POSITIVE strategy, undecided flag) with no parameter
checking. -/
theorem claim_C8_amended :
    (∀ (gs : ℤ) (f : ℤ → ℤ → ℤ) (g : ℕ → List (ℤ × ℤ)),
      SimpleEnvironment_init gs f g ≠ Except.error PyError.configError) ∧
    (∀ (x y : ℚ) (e : Option EnvSampler) (rid : Option ℕ) (d : ℚ × ℚ),
      (SimpleRobot_init x y e rid d).p_c = 95 / 100 ∧
      (SimpleRobot_init x y e rid d).decision_flag = -1 ∧
      (SimpleRobot_init x y e rid d).feedback_strategy =
        FeedbackStrategy.POSITIVE) := by
  constructor
  · intro gs f g hcontra
    simp only [SimpleEnvironment_init] at hcontra
    split_ifs at hcontra <;> simp_all
  · intro x y e rid d
    exact ⟨rfl, rfl, rfl⟩

/-- C2: folding the bits [1,1,1,1] into the scenario-B agent yields
alpha = 5 and beta = 1; `belief_value 5 1 = (1/2)^5 = 0.03125` lies below
`1 − p_c = 0.05`, so the decision rule sets the flag to 0 — the outcome the
specification's scenario B names "outcome-below-0.5" — and in particular the
flag is no longer the undecided value −1. -/
theorem claim_C2_scenarioB :
    ([1, 1, 1, 1].foldl recvSample scenarioB_robot).alpha = 5 ∧
    ([1, 1, 1, 1].foldl recvSample scenarioB_robot).beta = 1 ∧
    belief_value 5 1 = (1 / 2) ^ 5 ∧
    ((1 / 2 : ℚ)) ^ 5 = 1 / 32 ∧
    belief_value 5 1 < 1 - scenarioB_robot.p_c ∧
    (check_decision
        ([1, 1, 1, 1].foldl recvSample scenarioB_robot)).decision_flag = 0 ∧
    (check_decision
        ([1, 1, 1, 1].foldl recvSample scenarioB_robot)).decision_flag
      ≠ -1 := by
  norm_num [scenarioB_robot, baseRobot, SimpleRobot_init, recvSample,
    updateBelief, check_decision, belief_value, ← Nat.Ico_succ_right,
    Finset.sum_Ico_eq_sum_range, Finset.sum_range_succ]

/-- After a full `update` call the cursor still equals what the drain phase
set: no later phase of the step touches `last_msg_index`. -/
theorem update_cursor (dt : ℚ) (tape : RandomTape) (q : List Msg)
    (r : SimpleRobot) :
    (update dt tape q r).1.last_msg_index = (drainLoop q r).last_msg_index := by
  unfold update
  cases hst : r.state <;>
    simp [hst, sendSample, apply_ite (f := SimpleRobot.last_msg_index)]

/-- C4: the drain phase of a step folds into the belief exactly the pending
channel entries whose sender differs from the agent's id, in channel order,
counting one peer receipt per folded entry; afterwards the cursor equals the
channel length observed at drain start, it never decreased, and no later
phase of the step moves it. -/
theorem claim_C4_drain (dt : ℚ) (tape : RandomTape) (q : List Msg)
    (r : SimpleRobot) (h : r.last_msg_index ≤ q.length) :
    ((drainLoop q r).alpha, (drainLoop q r).beta) =
      ((q.drop r.last_msg_index).filter (fun m => m.1 ≠ r.robot_id)).foldl
        (fun ab m => updateBelief ab.1 ab.2 m.2) (r.alpha, r.beta) ∧
    (drainLoop q r).recvs = r.recvs +
      ((q.drop r.last_msg_index).filter (fun m => m.1 ≠ r.robot_id)).length ∧
    (drainLoop q r).last_msg_index = q.length ∧
    r.last_msg_index ≤ (drainLoop q r).last_msg_index ∧
    (update dt tape q r).1.last_msg_index = q.length := by
  obtain ⟨h1, h2, h3⟩ :=
    drainLoop_spec_aux q (q.length - r.last_msg_index) r h rfl
  refine ⟨h1, h2, h3, by omega, ?_⟩
  rw [update_cursor, h3]

/-- Witness for C4: `baseRobot` (id 0, cursor 0) draining `drainQueue`. -/
theorem claim_C4_drain_witness :
    baseRobot.last_msg_index ≤ drainQueue.length ∧
    (((drainLoop drainQueue baseRobot).alpha,
        (drainLoop drainQueue baseRobot).beta) =
      ((drainQueue.drop baseRobot.last_msg_index).filter
          (fun m => m.1 ≠ baseRobot.robot_id)).foldl
        (fun ab m => updateBelief ab.1 ab.2 m.2)
        (baseRobot.alpha, baseRobot.beta) ∧
    (drainLoop drainQueue baseRobot).recvs = baseRobot.recvs +
      ((drainQueue.drop baseRobot.last_msg_index).filter
          (fun m => m.1 ≠ baseRobot.robot_id)).length ∧
    (drainLoop drainQueue baseRobot).last_msg_index = drainQueue.length ∧
    baseRobot.last_msg_index ≤ (drainLoop drainQueue baseRobot).last_msg_index ∧
    (update (1 / 10) baseTape drainQueue baseRobot).1.last_msg_index =
      drainQueue.length) :=
  ⟨by norm_num [baseRobot, SimpleRobot_init, drainQueue],
   claim_C4_drain (1 / 10) baseTape drainQueue baseRobot
    (by norm_num [baseRobot, SimpleRobot_init, drainQueue])⟩

/-- In any state other than the random walk, a step leaves the position
unchanged. -/
theorem update_pos_nonwalk (dt : ℚ) (tape : RandomTape) (q : List Msg)
    (r : SimpleRobot) (h : r.state ≠ RobotState.RANDOM_WALK) :
    (update dt tape q r).1.x = r.x ∧ (update dt tape q r).1.y = r.y := by
  unfold update
  cases hst : r.state with
  | RANDOM_WALK => exact absurd hst h
  | COLLISION_AVOIDANCE => simp [hst]
  | GET_OBSERVATION => simp [hst]
  | SEND_SAMPLE => simp [hst, sendSample]
  | RESET => simp [hst]

/-- In the random-walk state, the position after a step is the position
`performMovement` computes on the drained, decision-checked robot with the
incremented timer. -/
theorem update_pos_walk (dt : ℚ) (tape : RandomTape) (q : List Msg)
    (r : SimpleRobot) (hw : r.state = RobotState.RANDOM_WALK) :
    (update dt tape q r).1.x =
      (performMovement dt tape
        { check_decision (drainLoop q r) with
          timer := (check_decision (drainLoop q r)).timer + dt }).x ∧
    (update dt tape q r).1.y =
      (performMovement dt tape
        { check_decision (drainLoop q r) with
          timer := (check_decision (drainLoop q r)).timer + dt }).y := by
  unfold update
  simp [hw, apply_ite (f := SimpleRobot.x), apply_ite (f := SimpleRobot.y)]

/-- `performMovement` keeps a position that starts inside the unit square
inside the unit square; when every retry fails it leaves it unchanged. -/
theorem performMovement_bounds (dt : ℚ) (tape : RandomTape) (r : SimpleRobot)
    (hx0 : 0 ≤ r.x) (hx1 : r.x ≤ 1) (hy0 : 0 ≤ r.y) (hy1 : r.y ≤ 1) :
    (0 ≤ (performMovement dt tape r).x ∧ (performMovement dt tape r).x ≤ 1 ∧
     0 ≤ (performMovement dt tape r).y ∧ (performMovement dt tape r).y ≤ 1) ∧
    (∀ d : ℚ × ℚ, ∀ k : ℕ,
      moveAttempts r.x r.y
          (clip (|tape.cauchyDraw| * r.levy_scale) (5 / 1000) (3 / 10))
          tape.dirs r.direction 0 8 = (none, d, k) →
      (performMovement dt tape r).x = r.x ∧
        (performMovement dt tape r).y = r.y) := by
  simp only [performMovement]
  rcases hmv : moveAttempts r.x r.y
      (clip (|tape.cauchyDraw| * r.levy_scale) (5 / 1000) (3 / 10))
      tape.dirs r.direction 0 8 with ⟨o, dd, kk⟩
  cases o with
  | none =>
    exact ⟨⟨hx0, hx1, hy0, hy1⟩, fun d k _ => ⟨rfl, rfl⟩⟩
  | some p =>
    have hb := moveAttempts_some_bounds r.x r.y
      (clip (|tape.cauchyDraw| * r.levy_scale) (5 / 1000) (3 / 10))
      tape.dirs r.direction 0 8 p dd kk hmv
    refine ⟨?_, fun d k hm => absurd hm (by simp)⟩
    split_ifs <;> simpa using ⟨hb.1, hb.2.1, hb.2.2.1, hb.2.2.2⟩

/-- C5: starting inside the unit square, a step call never moves the agent
outside it — in the explore state a candidate position is committed only
after passing the bounds check, with up to 8 redrawn headings, and when all
attempts fail the agent stays in place; in every other state the position is
untouched. -/
theorem claim_C5_unit_square (dt : ℚ) (tape : RandomTape) (q : List Msg)
    (r : SimpleRobot) (d : ℚ × ℚ) (k : ℕ)
    (hx0 : 0 ≤ r.x) (hx1 : r.x ≤ 1) (hy0 : 0 ≤ r.y) (hy1 : r.y ≤ 1) :
    (0 ≤ (update dt tape q r).1.x ∧ (update dt tape q r).1.x ≤ 1 ∧
     0 ≤ (update dt tape q r).1.y ∧ (update dt tape q r).1.y ≤ 1) ∧
    (moveAttempts r.x r.y
        (clip (|tape.cauchyDraw| * r.levy_scale) (5 / 1000) (3 / 10))
        tape.dirs r.direction 0 8 = (none, d, k) →
      (update dt tape q r).1.x = r.x ∧ (update dt tape q r).1.y = r.y) := by
  by_cases hw : r.state = RobotState.RANDOM_WALK
  · obtain ⟨ex, ey⟩ := update_pos_walk dt tape q r hw
    rw [ex, ey]
    obtain ⟨hbounds, hstay⟩ := performMovement_bounds dt tape
      { check_decision (drainLoop q r) with
        timer := (check_decision (drainLoop q r)).timer + dt }
      (by simpa using hx0) (by simpa using hx1)
      (by simpa using hy0) (by simpa using hy1)
    refine ⟨hbounds, fun hm => ?_⟩
    have := hstay d k (by simpa using hm)
    simpa using this
  · obtain ⟨h1, h2⟩ := update_pos_nonwalk dt tape q r hw
    rw [h1, h2]
    exact ⟨⟨hx0, hx1, hy0, hy1⟩, fun _ => ⟨rfl, rfl⟩⟩

/-- C10 (frame): when the current state is the avoidance, observe, broadcast
or reset state, the step call leaves the position (x, y) unchanged; only the
explore (random-walk) state can move the agent. -/
theorem claim_C10_no_move (dt : ℚ) (tape : RandomTape) (q : List Msg)
    (r : SimpleRobot)
    (h : r.state = RobotState.COLLISION_AVOIDANCE ∨
      r.state = RobotState.GET_OBSERVATION ∨
      r.state = RobotState.SEND_SAMPLE ∨ r.state = RobotState.RESET) :
    (update dt tape q r).1.x = r.x ∧ (update dt tape q r).1.y = r.y := by
  apply update_pos_nonwalk
  rcases h with h | h | h | h <;> simp [h]

/-- Witness for C5: the freshly constructed robot at (1/2, 1/2). -/
theorem claim_C5_unit_square_witness :
    (0 ≤ baseRobot.x ∧ baseRobot.x ≤ 1 ∧ 0 ≤ baseRobot.y ∧
      baseRobot.y ≤ 1) ∧
    ((0 ≤ (update (1 / 10) baseTape [] baseRobot).1.x ∧
      (update (1 / 10) baseTape [] baseRobot).1.x ≤ 1 ∧
      0 ≤ (update (1 / 10) baseTape [] baseRobot).1.y ∧
      (update (1 / 10) baseTape [] baseRobot).1.y ≤ 1) ∧
    (moveAttempts baseRobot.x baseRobot.y
        (clip (|baseTape.cauchyDraw| * baseRobot.levy_scale) (5 / 1000)
          (3 / 10))
        baseTape.dirs baseRobot.direction 0 8 = (none, (1, 0), 0) →
      (update (1 / 10) baseTape [] baseRobot).1.x = baseRobot.x ∧
        (update (1 / 10) baseTape [] baseRobot).1.y = baseRobot.y)) :=
  ⟨by norm_num [baseRobot, SimpleRobot_init],
   claim_C5_unit_square (1 / 10) baseTape [] baseRobot (1, 0) 0
    (by norm_num [baseRobot, SimpleRobot_init])
    (by norm_num [baseRobot, SimpleRobot_init])
    (by norm_num [baseRobot, SimpleRobot_init])
    (by norm_num [baseRobot, SimpleRobot_init])⟩

/-- Witness for C10: a robot in the observe state does not move. -/
theorem claim_C10_no_move_witness :
    (observeRobot.state = RobotState.COLLISION_AVOIDANCE ∨
      observeRobot.state = RobotState.GET_OBSERVATION ∨
      observeRobot.state = RobotState.SEND_SAMPLE ∨
      observeRobot.state = RobotState.RESET) ∧
    ((update (1 / 10) baseTape [] observeRobot).1.x = observeRobot.x ∧
     (update (1 / 10) baseTape [] observeRobot).1.y = observeRobot.y) :=
  ⟨Or.inr (Or.inl rfl),
   claim_C10_no_move (1 / 10) baseTape [] observeRobot (Or.inr (Or.inl rfl))⟩

/-- In the random-walk state, the timer after a step is whatever
`performMovement` left, the trailing observation check not touching it. -/
theorem update_timer_walk (dt : ℚ) (tape : RandomTape) (q : List Msg)
    (r : SimpleRobot) (hw : r.state = RobotState.RANDOM_WALK) :
    (update dt tape q r).1.timer =
      (performMovement dt tape
        { check_decision (drainLoop q r) with
          timer := (check_decision (drainLoop q r)).timer + dt }).timer := by
  unfold update
  simp [hw, apply_ite (f := SimpleRobot.timer)]

/-- When the first candidate commits and neither reset fires,
`performMovement` adds exactly `dt` to the observation timer it was given. -/
theorem performMovement_timer_success (dt : ℚ) (tape : RandomTape)
    (r : SimpleRobot) (p d : ℚ × ℚ) (k : ℕ)
    (hm : moveAttempts r.x r.y
        (clip (|tape.cauchyDraw| * r.levy_scale) (5 / 1000) (3 / 10))
        tape.dirs r.direction 0 8 = (some p, d, k))
    (hno1 : r.timer + dt < r.tau)
    (hno2 : r.random_walk_timer + dt < r.random_walk_duration) :
    (performMovement dt tape r).timer = r.timer + dt := by
  simp only [performMovement, hm]
  rw [if_neg (by simpa using not_le.2 hno1), if_neg (by simpa using not_le.2 hno2)]


/-- C9 counterexample: a single step of `cexRobot` in the explore state with
`dt = 1/10` and a successful movement increases the observation timer by
`2·dt = 1/5`, not by `dt`: the timer is incremented once before dispatch and
once more inside the movement routine. -/
theorem claim_C9_cex :
    cexRobot.state = RobotState.RANDOM_WALK ∧
    cexRobot.timer = 0 ∧
    (update (1 / 10) baseTape [] cexRobot).1.timer = 2 * (1 / 10) ∧
    (update (1 / 10) baseTape [] cexRobot).1.timer ≠ 1 / 10 := by
  have hd : drainLoop ([] : List Msg) cexRobot = cexRobot :=
    drainLoop_done _ _ (by norm_num [cexRobot, baseRobot, SimpleRobot_init])
  refine ⟨rfl, rfl, ?_, ?_⟩ <;>
  · simp only [update]
    rw [hd]
    norm_num [check_decision, performMovement, moveAttempts, clip, cexRobot,
      baseRobot, SimpleRobot_init, baseTape]

/-- C9 amended: the observation timer is incremented by `dt` once before
state dispatch; in the explore state a successfully committed movement
increments it by `dt` a second time before the reset checks, so a single
explore-state step with committed movement and no reset increases the
observation timer by exactly `2·dt`. -/
theorem claim_C9_timer_amended (dt : ℚ) (tape : RandomTape) (q : List Msg)
    (r : SimpleRobot) (p d : ℚ × ℚ) (k : ℕ)
    (hw : r.state = RobotState.RANDOM_WALK)
    (hm : moveAttempts r.x r.y
        (clip (|tape.cauchyDraw| * r.levy_scale) (5 / 1000) (3 / 10))
        tape.dirs r.direction 0 8 = (some p, d, k))
    (hno1 : r.timer + 2 * dt < r.tau)
    (hno2 : r.random_walk_timer + dt < r.random_walk_duration) :
    (update dt tape q r).1.timer = r.timer + 2 * dt := by
  rw [update_timer_walk dt tape q r hw]
  rw [performMovement_timer_success dt tape _ p d k (by simpa using hm)
    (by simp; linarith) (by simpa using hno2)]
  simp
  ring

/-- Witness for the amended C9: one explore step of `cexRobot` with
`dt = 1/10`, a committed first candidate and no reset ends with the
observation timer increased by exactly `2·dt`. -/
theorem claim_C9_timer_amended_witness :
    (cexRobot.state = RobotState.RANDOM_WALK ∧
     moveAttempts cexRobot.x cexRobot.y
        (clip (|baseTape.cauchyDraw| * cexRobot.levy_scale) (5 / 1000)
          (3 / 10))
        baseTape.dirs cexRobot.direction 0 8 =
        (some (101 / 200, 1 / 2), (1, 0), 0) ∧
     cexRobot.timer + 2 * (1 / 10) < cexRobot.tau ∧
     cexRobot.random_walk_timer + 1 / 10 < cexRobot.random_walk_duration) ∧
    (update (1 / 10) baseTape [] cexRobot).1.timer =
      cexRobot.timer + 2 * (1 / 10) :=
  ⟨⟨rfl,
    by norm_num [cexRobot, baseRobot, SimpleRobot_init, baseTape,
      moveAttempts, clip],
    by norm_num [cexRobot, baseRobot, SimpleRobot_init],
    by norm_num [cexRobot, baseRobot, SimpleRobot_init]⟩,
   claim_C9_timer_amended (1 / 10) baseTape [] cexRobot (101 / 200, 1 / 2)
    (1, 0) 0 rfl
    (by norm_num [cexRobot, baseRobot, SimpleRobot_init, baseTape,
      moveAttempts, clip])
    (by norm_num [cexRobot, baseRobot, SimpleRobot_init])
    (by norm_num [cexRobot, baseRobot, SimpleRobot_init])⟩

end SwarmModel
